import Mathlib

/-!
Shallow embedding of `src/Index.py` (Valuation_Reasoner): a discounted
cash flow (DCF) valuation pipeline.  Python floats are modelled as `ℚ`;
Python exceptions are modelled by an explicit error type: the
`ValueError` raised inside `terminal_value` is the spec's
`InvalidAssumption`, float division by zero is `zeroDivisionError`, and
`fcfs[-1]` on an empty list is `indexError`.  The spec additionally
declares an `InsufficientData` error, which appears in the error type so
that claims about it can be stated; the code never constructs it.
The explanation string built by `dcf_valuation` is pure formatting over
the numeric record and is not modelled; only the numeric output is.
-/

/-- The error vocabulary.  `invalidAssumption` is the `ValueError` raised at
line 71 of `Index.py`; `insufficientData` is declared by the spec (§7) but
has no raise site in the code; `zeroDivisionError` and `indexError` are the
Python runtime errors reachable from `dcf_valuation`. -/
inductive DCFError where
  | invalidAssumption
  | insufficientData
  | zeroDivisionError
  | indexError
deriving DecidableEq, Repr

/-- `DCFInputs` dataclass (lines 24-38 of `Index.py`). `forecast_periods`
is modelled as `ℕ` (the spec requires it ≥ 1; Python list slicing with a
non-negative bound is `List.take`). -/
structure DCFInputs where
  current_revenue : ℚ
  revenue_growth_rates : List ℚ
  profit_margin : ℚ
  tax_rate : ℚ
  reinvestment_rate : ℚ
  discount_rate : ℚ
  terminal_growth_rate : ℚ
  forecast_periods : ℕ
deriving DecidableEq, Repr

/-- The `numeric` dict packed by `dcf_valuation` (lines 101-108). -/
structure ValuationResult where
  revenues : List ℚ
  fcfs : List ℚ
  discounted_fcfs : List ℚ
  terminal_value : ℚ
  pv_terminal_value : ℚ
  enterprise_value : ℚ
deriving DecidableEq, Repr

/-- Python float division: raises `ZeroDivisionError` on a zero
denominator, otherwise exact division in `ℚ`. -/
def checkedDiv (x y : ℚ) : Except DCFError ℚ :=
  if y = 0 then Except.error DCFError.zeroDivisionError else Except.ok (x / y)

/-- `project_revenues` (lines 41-47): the loop carries the running
revenue `r`, multiplying by `(1 + g)` for each growth rate in turn. -/
def project_revenues : ℚ → List ℚ → List ℚ
  | _, [] => []
  | r, g :: gs => (r * (1 + g)) :: project_revenues (r * (1 + g)) gs

/-- `project_free_cash_flows` (lines 50-57): the loop appends
`FCF = Revenue * margin * (1 - reinvestment_rate)` for each revenue. -/
def project_free_cash_flows (revenues : List ℚ) (margin : ℚ) (reinvestment_rate : ℚ) : List ℚ :=
  match revenues with
  | [] => []
  | rev :: rest => (rev * margin * (1 - reinvestment_rate)) ::
      project_free_cash_flows rest margin reinvestment_rate

/-- The loop body of `discount_cash_flows`, carrying the 1-based index
`i` of `enumerate(cash_flows, start=1)`. -/
def discountGo (discount_rate : ℚ) : ℕ → List ℚ → Except DCFError (List ℚ)
  | _, [] => Except.ok []
  | i, cf :: rest =>
    match checkedDiv cf ((1 + discount_rate) ^ i) with
    | Except.error e => Except.error e
    | Except.ok pv =>
      match discountGo discount_rate (i + 1) rest with
      | Except.error e => Except.error e
      | Except.ok tail => Except.ok (pv :: tail)

/-- `discount_cash_flows` (lines 60-65): each cash flow is divided by
`(1 + discount_rate) ^ i` with `i` starting at 1. -/
def discount_cash_flows (cash_flows : List ℚ) (discount_rate : ℚ) : Except DCFError (List ℚ) :=
  discountGo discount_rate 1 cash_flows

/-- `terminal_value` (lines 68-75): raises when
`discount_rate <= terminal_growth`, else the Gordon Growth perpetuity. -/
def terminal_value (last_cash_flow discount_rate terminal_growth : ℚ) : Except DCFError ℚ :=
  if discount_rate ≤ terminal_growth then
    Except.error DCFError.invalidAssumption
  else
    checkedDiv (last_cash_flow * (1 + terminal_growth)) (discount_rate - terminal_growth)

/-- `dcf_valuation` (lines 78-108), numeric part.  Steps in source
order: truncate the growth rates, project revenues, project FCFs,
discount them, take `fcfs[-1]` (an `IndexError` on an empty list),
compute the terminal value, discount it, and sum into the enterprise
value. -/
def dcf_valuation (inputs : DCFInputs) : Except DCFError ValuationResult :=
  let growths := inputs.revenue_growth_rates.take inputs.forecast_periods
  let revenues := project_revenues inputs.current_revenue growths
  let fcfs := project_free_cash_flows revenues inputs.profit_margin inputs.reinvestment_rate
  match discount_cash_flows fcfs inputs.discount_rate with
  | Except.error e => Except.error e
  | Except.ok discounted_fcfs =>
    match fcfs.getLast? with
    | none => Except.error DCFError.indexError
    | some last_fcf =>
      match terminal_value last_fcf inputs.discount_rate inputs.terminal_growth_rate with
      | Except.error e => Except.error e
      | Except.ok tv =>
        match checkedDiv tv ((1 + inputs.discount_rate) ^ inputs.forecast_periods) with
        | Except.error e => Except.error e
        | Except.ok pv_tv =>
          Except.ok
            { revenues := revenues
              fcfs := fcfs
              discounted_fcfs := discounted_fcfs
              terminal_value := tv
              pv_terminal_value := pv_tv
              enterprise_value := discounted_fcfs.sum + pv_tv }

/-- Whether the valuation returns a result (no exception). -/
def dcfOk (inputs : DCFInputs) : Bool :=
  match dcf_valuation inputs with
  | Except.ok _ => true
  | Except.error _ => false

/-! ### Derived abbreviations for the intermediate values of `dcf_valuation` -/

/-- The truncated growth-rate list (`growths`, line 80). -/
def dcfGrowths (inputs : DCFInputs) : List ℚ :=
  inputs.revenue_growth_rates.take inputs.forecast_periods

/-- The projected revenues computed by `dcf_valuation` (line 81). -/
def dcfRevenues (inputs : DCFInputs) : List ℚ :=
  project_revenues inputs.current_revenue (dcfGrowths inputs)

/-- The projected free cash flows computed by `dcf_valuation` (lines 84-85). -/
def dcfFcfs (inputs : DCFInputs) : List ℚ :=
  project_free_cash_flows (dcfRevenues inputs) inputs.profit_margin inputs.reinvestment_rate

/-- The list a successful `discount_cash_flows` returns: each cash flow
divided by `(1 + rate) ^ i`, with `i` counting up from the start index. -/
def discountPureGo (discount_rate : ℚ) : ℕ → List ℚ → List ℚ
  | _, [] => []
  | i, cf :: rest => cf / (1 + discount_rate) ^ i :: discountPureGo discount_rate (i + 1) rest

/-! ### Helper lemmas -/

lemma project_revenues_length (r : ℚ) (gs : List ℚ) :
    (project_revenues r gs).length = gs.length := by
  induction gs generalizing r with
  | nil => rfl
  | cons g gs ih => simp [project_revenues, ih]

lemma project_revenues_getD_zero (r : ℚ) (gs : List ℚ) (h : 0 < gs.length) :
    (project_revenues r gs).getD 0 0 = r * (1 + gs.getD 0 0) := by
  cases gs with
  | nil => simp at h
  | cons g gs => rfl

lemma project_revenues_getD_succ (r : ℚ) (gs : List ℚ) (k : ℕ) (hk : k + 1 < gs.length) :
    (project_revenues r gs).getD (k + 1) 0
      = (project_revenues r gs).getD k 0 * (1 + gs.getD (k + 1) 0) := by
  induction gs generalizing r k with
  | nil => simp at hk
  | cons g gs ih =>
    cases k with
    | zero =>
      have hlen : 0 < gs.length := by
        simpa using Nat.lt_of_succ_lt_succ hk
      simpa [project_revenues] using project_revenues_getD_zero (r * (1 + g)) gs hlen
    | succ k =>
      have hk2 : k + 1 < gs.length := by
        simp at hk; omega
      simpa [project_revenues] using ih (r * (1 + g)) k hk2

lemma project_revenues_chain : ∀ (gs : List ℚ) (r : ℚ), 0 < r → (∀ g ∈ gs, 0 ≤ g) →
    List.Chain (· ≤ ·) r (project_revenues r gs) := by
  intro gs
  induction gs with
  | nil => intro r _ _; exact List.Chain.nil
  | cons g gs ih =>
    intro r h0 hg
    have hg0 : 0 ≤ g := hg g (by simp)
    have hmul : 0 ≤ r * g := mul_nonneg h0.le hg0
    have hle : r ≤ r * (1 + g) := by nlinarith
    have hpos : 0 < r * (1 + g) := by nlinarith
    exact List.Chain.cons hle (ih (r * (1 + g)) hpos (fun x hx => hg x (by simp [hx])))

lemma project_free_cash_flows_eq_map (revenues : List ℚ) (margin rr : ℚ) :
    project_free_cash_flows revenues margin rr
      = revenues.map (fun rev => rev * margin * (1 - rr)) := by
  induction revenues with
  | nil => rfl
  | cons rev rest ih => simp [project_free_cash_flows, ih]

lemma discountPureGo_length (rate : ℚ) (j : ℕ) (cfs : List ℚ) :
    (discountPureGo rate j cfs).length = cfs.length := by
  induction cfs generalizing j with
  | nil => rfl
  | cons cf rest ih => simp [discountPureGo, ih]

lemma discountPureGo_getD (rate : ℚ) (j : ℕ) (cfs : List ℚ) (i : ℕ) (hi : i < cfs.length) :
    (discountPureGo rate j cfs).getD i 0 = cfs.getD i 0 / (1 + rate) ^ (j + i) := by
  induction cfs generalizing j i with
  | nil => simp at hi
  | cons cf rest ih =>
    cases i with
    | zero => simp [discountPureGo]
    | succ i =>
      have hi2 : i < rest.length := by simpa using Nat.lt_of_succ_lt_succ hi
      have h2 := ih (j + 1) i hi2
      have hexp : j + 1 + i = j + (i + 1) := by omega
      rw [hexp] at h2
      simpa [discountPureGo] using h2

lemma discountGo_ok (rate : ℚ) (h : 1 + rate ≠ 0) (j : ℕ) (cfs : List ℚ) :
    discountGo rate j cfs = Except.ok (discountPureGo rate j cfs) := by
  induction cfs generalizing j with
  | nil => rfl
  | cons cf rest ih =>
    have hp : (1 + rate) ^ j ≠ 0 := pow_ne_zero _ h
    simp [discountGo, discountPureGo, checkedDiv, hp, ih]

lemma discountGo_ok_length (rate : ℚ) (j : ℕ) (cfs l : List ℚ)
    (h : discountGo rate j cfs = Except.ok l) : l.length = cfs.length := by
  induction cfs generalizing j l with
  | nil =>
    simp only [discountGo, Except.ok.injEq] at h
    simp [← h]
  | cons cf rest ih =>
    simp only [discountGo] at h
    cases hc : checkedDiv cf ((1 + rate) ^ j) with
    | error e => rw [hc] at h; simp at h
    | ok pv =>
      rw [hc] at h
      cases hg2 : discountGo rate (j + 1) rest with
      | error e => rw [hg2] at h; simp at h
      | ok tail =>
        rw [hg2] at h
        simp only [Except.ok.injEq] at h
        subst h
        simp [ih (j + 1) tail hg2]

lemma checkedDiv_ok (x y q : ℚ) (h : checkedDiv x y = Except.ok q) :
    q = x / y ∧ y ≠ 0 := by
  unfold checkedDiv at h
  split at h
  · simp at h
  · rename_i hy
    injection h with h
    exact ⟨h.symm, hy⟩

lemma terminal_value_ok (last d g tv : ℚ) (h : terminal_value last d g = Except.ok tv) :
    g < d ∧ tv = last * (1 + g) / (d - g) := by
  unfold terminal_value at h
  split at h
  · simp at h
  · rename_i hgd
    exact ⟨not_le.mp hgd, (checkedDiv_ok _ _ _ h).1⟩

lemma dcfFcfs_length (inputs : DCFInputs) :
    (dcfFcfs inputs).length = (dcfGrowths inputs).length := by
  simp [dcfFcfs, dcfRevenues, project_free_cash_flows_eq_map, project_revenues_length]

lemma dcfFcfs_getLast (inputs : DCFInputs) (h : dcfGrowths inputs ≠ []) :
    ∃ last, (dcfFcfs inputs).getLast? = some last := by
  have hne : dcfFcfs inputs ≠ [] := by
    intro hnil
    have hlen := dcfFcfs_length inputs
    rw [hnil] at hlen
    exact h (List.eq_nil_of_length_eq_zero hlen.symm)
  cases hh : (dcfFcfs inputs).getLast? with
  | some a => exact ⟨a, rfl⟩
  | none => exact absurd (List.getLast?_eq_none_iff.mp hh) hne

lemma dcf_valuation_eq_ok (inputs : DCFInputs) (last : ℚ)
    (hlast : (dcfFcfs inputs).getLast? = some last)
    (hd : 1 + inputs.discount_rate ≠ 0)
    (hdg : inputs.terminal_growth_rate < inputs.discount_rate) :
    dcf_valuation inputs = Except.ok
      { revenues := dcfRevenues inputs
        fcfs := dcfFcfs inputs
        discounted_fcfs := discountPureGo inputs.discount_rate 1 (dcfFcfs inputs)
        terminal_value := last * (1 + inputs.terminal_growth_rate)
            / (inputs.discount_rate - inputs.terminal_growth_rate)
        pv_terminal_value := last * (1 + inputs.terminal_growth_rate)
            / (inputs.discount_rate - inputs.terminal_growth_rate)
            / (1 + inputs.discount_rate) ^ inputs.forecast_periods
        enterprise_value := (discountPureGo inputs.discount_rate 1 (dcfFcfs inputs)).sum
            + last * (1 + inputs.terminal_growth_rate)
                / (inputs.discount_rate - inputs.terminal_growth_rate)
                / (1 + inputs.discount_rate) ^ inputs.forecast_periods } := by
  have hsub : inputs.discount_rate - inputs.terminal_growth_rate ≠ 0 :=
    sub_ne_zero.mpr (ne_of_gt hdg)
  have hpow : (1 + inputs.discount_rate) ^ inputs.forecast_periods ≠ 0 := pow_ne_zero _ hd
  have hfg : ¬ inputs.discount_rate ≤ inputs.terminal_growth_rate := not_le.mpr hdg
  have hlast2 := hlast
  simp only [dcfFcfs, dcfRevenues, dcfGrowths] at hlast2
  simp only [dcf_valuation, discount_cash_flows,
    discountGo_ok inputs.discount_rate hd, hlast2, terminal_value, checkedDiv,
    if_neg hsub, if_neg hpow, if_neg hfg, dcfFcfs, dcfRevenues, dcfGrowths]

lemma dcf_valuation_eq_error_invalid (inputs : DCFInputs) (last : ℚ)
    (hlast : (dcfFcfs inputs).getLast? = some last)
    (hd : 1 + inputs.discount_rate ≠ 0)
    (hdg : inputs.discount_rate ≤ inputs.terminal_growth_rate) :
    dcf_valuation inputs = Except.error DCFError.invalidAssumption := by
  have hlast2 := hlast
  simp only [dcfFcfs, dcfRevenues, dcfGrowths] at hlast2
  simp only [dcf_valuation, discount_cash_flows,
    discountGo_ok inputs.discount_rate hd, hlast2, terminal_value, if_pos hdg]

lemma dcf_valuation_empty (inputs : DCFInputs) (h : dcfGrowths inputs = []) :
    dcf_valuation inputs = Except.error DCFError.indexError := by
  simp only [dcfGrowths] at h
  simp [dcf_valuation, h, project_revenues, project_free_cash_flows,
    discount_cash_flows, discountGo]

lemma dcf_valuation_ok_elim (inputs : DCFInputs) (r : ValuationResult)
    (h : dcf_valuation inputs = Except.ok r) :
    r.revenues = dcfRevenues inputs ∧
    r.fcfs = dcfFcfs inputs ∧
    discount_cash_flows r.fcfs inputs.discount_rate = Except.ok r.discounted_fcfs ∧
    (∃ last, r.fcfs.getLast? = some last ∧
      r.terminal_value = last * (1 + inputs.terminal_growth_rate)
          / (inputs.discount_rate - inputs.terminal_growth_rate)) ∧
    inputs.terminal_growth_rate < inputs.discount_rate ∧
    r.pv_terminal_value = r.terminal_value
        / (1 + inputs.discount_rate) ^ inputs.forecast_periods ∧
    r.enterprise_value = r.discounted_fcfs.sum + r.pv_terminal_value := by
  simp only [dcf_valuation] at h
  split at h
  · simp at h
  · rename_i discounted hdisc
    split at h
    · simp at h
    · rename_i last hlast
      split at h
      · simp at h
      · rename_i tv htv
        split at h
        · simp at h
        · rename_i pv hpv
          injection h with h
          subst h
          obtain ⟨hgd, htvf⟩ := terminal_value_ok _ _ _ _ htv
          obtain ⟨hpvf, -⟩ := checkedDiv_ok _ _ _ hpv
          exact ⟨rfl, rfl, hdisc, ⟨last, hlast, htvf⟩, hgd, hpvf, rfl⟩

/-! ### Concrete example inputs -/

/-- A small valid input: one forecast year, 10% growth, 20% margin,
20% reinvestment, 10% discount rate, 3% terminal growth. -/
def exB : DCFInputs :=
  { current_revenue := 100
    revenue_growth_rates := [1/10]
    profit_margin := 1/5
    tax_rate := 1/4
    reinvestment_rate := 1/5
    discount_rate := 1/10
    terminal_growth_rate := 3/100
    forecast_periods := 1 }

/-- The result `dcf_valuation` returns on `exB`. -/
def resB : ValuationResult :=
  { revenues := [110]
    fcfs := [88/5]
    discounted_fcfs := [16]
    terminal_value := 9064/35
    pv_terminal_value := 1648/7
    enterprise_value := 1760/7 }

lemma dcf_exB : dcf_valuation exB = Except.ok resB := by
  norm_num [dcf_valuation, discount_cash_flows, discountGo, checkedDiv,
    project_revenues, project_free_cash_flows, terminal_value, exB, resB]

/-- `exB` with three requested forecast years but only one growth rate. -/
def exC1 : DCFInputs :=
  { exB with forecast_periods := 3 }

/-- Empty growth-rate list with one requested forecast year and
`discount_rate = terminal_growth_rate`. -/
def exC2A : DCFInputs :=
  { exB with revenue_growth_rates := []
             discount_rate := 1/20
             terminal_growth_rate := 1/20 }

/-- `discount_rate = -1 ≤ terminal_growth_rate = 0` with a nonempty
growth-rate list. -/
def exC2B : DCFInputs :=
  { exB with discount_rate := -1
             terminal_growth_rate := 0 }

/-- A valid input except that `discount_rate < terminal_growth_rate`. -/
def exC2C : DCFInputs :=
  { exB with terminal_growth_rate := 1/2 }

/-! ### Claims -/

/-- C3: on every input on which the valuation succeeds, the result satisfies
`pv_terminal_value = terminal_value / (1 + discount_rate) ^ forecast_periods`
and `enterprise_value = sum(discounted_fcfs) + pv_terminal_value` exactly
(`dcf_valuation` computes `ev` as that very sum, line 98). -/
theorem dcf_ev_decomposition (inputs : DCFInputs) (r : ValuationResult)
    (h : dcf_valuation inputs = Except.ok r) :
    r.pv_terminal_value
        = r.terminal_value / (1 + inputs.discount_rate) ^ inputs.forecast_periods ∧
    r.enterprise_value = r.discounted_fcfs.sum + r.pv_terminal_value := by
  have he := dcf_valuation_ok_elim inputs r h
  exact ⟨he.2.2.2.2.2.1, he.2.2.2.2.2.2⟩

theorem dcf_ev_decomposition_witness :
    dcf_valuation exB = Except.ok resB ∧
    (resB.pv_terminal_value
        = resB.terminal_value / (1 + exB.discount_rate) ^ exB.forecast_periods ∧
     resB.enterprise_value = resB.discounted_fcfs.sum + resB.pv_terminal_value) :=
  ⟨dcf_exB, dcf_ev_decomposition exB resB dcf_exB⟩

/-- C4: revenue projection returns one revenue per growth rate, with
`revenue[0] = current_revenue * (1 + rate[0])` and
`revenue[k] = revenue[k-1] * (1 + rate[k])`, compounding sequentially;
no growth rate is rejected (the function is total). -/
theorem project_revenues_recurrence (cr : ℚ) (gs : List ℚ) :
    (project_revenues cr gs).length = gs.length ∧
    (0 < gs.length → (project_revenues cr gs).getD 0 0 = cr * (1 + gs.getD 0 0)) ∧
    ∀ k, k + 1 < gs.length →
      (project_revenues cr gs).getD (k + 1) 0
        = (project_revenues cr gs).getD k 0 * (1 + gs.getD (k + 1) 0) :=
  ⟨project_revenues_length cr gs, project_revenues_getD_zero cr gs,
   fun k hk => project_revenues_getD_succ cr gs k hk⟩

theorem project_revenues_recurrence_witness :
    (project_revenues 100 [1/10, -1/2]).length = 2 ∧
    (project_revenues 100 [1/10, -1/2]).getD 0 0 = 100 * (1 + (1/10 : ℚ)) ∧
    (project_revenues 100 [1/10, -1/2]).getD 1 0
      = (project_revenues 100 [1/10, -1/2]).getD 0 0 * (1 + (-1/2 : ℚ)) := by
  have h := project_revenues_recurrence 100 [1/10, -1/2]
  refine ⟨by simpa using h.1, ?_, ?_⟩
  · simpa using h.2.1 (by norm_num)
  · simpa using h.2.2 0 (by norm_num)

/-- C5: free-cash-flow projection is element-wise
`revenue * margin * (1 - reinvestment_rate)` with no validation of the
margin or the reinvestment rate, and the `tax_rate` input has no effect
anywhere in the valuation. -/
theorem fcf_formula_and_tax_unused :
    (∀ (revenues : List ℚ) (margin rr : ℚ),
      project_free_cash_flows revenues margin rr
        = revenues.map (fun rev => rev * margin * (1 - rr))) ∧
    ∀ (inputs : DCFInputs) (t : ℚ),
      dcf_valuation { inputs with tax_rate := t } = dcf_valuation inputs := by
  refine ⟨project_free_cash_flows_eq_map, fun inputs t => ?_⟩
  obtain ⟨cr, rates, pm, tr, rr, d, g, fp⟩ := inputs
  rfl

/-- C6: for every cash-flow list and `rate ≠ -1`, discounting succeeds and
returns a list of the same length whose `i`-th element (1-indexed) is
`cash_flow / (1 + rate) ^ i`. -/
theorem discount_cash_flows_elementwise (cfs : List ℚ) (rate : ℚ) (h : rate ≠ -1) :
    ∃ l, discount_cash_flows cfs rate = Except.ok l ∧ l.length = cfs.length ∧
      ∀ i, i < cfs.length → l.getD i 0 = cfs.getD i 0 / (1 + rate) ^ (i + 1) := by
  have h1 : 1 + rate ≠ 0 := fun h0 => h (by linarith)
  refine ⟨discountPureGo rate 1 cfs, discountGo_ok rate h1 1 cfs,
    discountPureGo_length rate 1 cfs, ?_⟩
  intro i hi
  have hgd := discountPureGo_getD rate 1 cfs i hi
  have hexp : 1 + i = i + 1 := by omega
  rw [hexp] at hgd
  exact hgd

theorem discount_cash_flows_elementwise_witness :
    ∃ l, discount_cash_flows [10] 1 = Except.ok l ∧
      l.length = ([10] : List ℚ).length ∧
      ∀ i, i < ([10] : List ℚ).length →
        l.getD i 0 = ([10] : List ℚ).getD i 0 / (1 + 1) ^ (i + 1) :=
  discount_cash_flows_elementwise [10] 1 (by norm_num)

/-- C7: on every input on which the valuation succeeds, `terminal_value`
equals `last_fcf * (1 + terminal_growth_rate) / (discount_rate -
terminal_growth_rate)` where `last_fcf` is the last element of `fcfs`
(the `terminal_value` function consumes no other input). -/
theorem dcf_terminal_value_formula (inputs : DCFInputs) (r : ValuationResult)
    (h : dcf_valuation inputs = Except.ok r) :
    ∃ last, r.fcfs.getLast? = some last ∧
      r.terminal_value = last * (1 + inputs.terminal_growth_rate)
          / (inputs.discount_rate - inputs.terminal_growth_rate) :=
  (dcf_valuation_ok_elim inputs r h).2.2.2.1

theorem dcf_terminal_value_formula_witness :
    dcf_valuation exB = Except.ok resB ∧
    ∃ last, resB.fcfs.getLast? = some last ∧
      resB.terminal_value = last * (1 + exB.terminal_growth_rate)
          / (exB.discount_rate - exB.terminal_growth_rate) :=
  ⟨dcf_exB, dcf_terminal_value_formula exB resB dcf_exB⟩

/-- C9: with positive base revenue and all used growth rates nonnegative,
the projected revenue sequence is monotonically non-decreasing, its first
element at least `current_revenue`. -/
theorem project_revenues_monotone (inputs : DCFInputs)
    (h0 : 0 < inputs.current_revenue)
    (hg : ∀ g ∈ dcfGrowths inputs, 0 ≤ g) :
    List.Chain (· ≤ ·) inputs.current_revenue (dcfRevenues inputs) :=
  project_revenues_chain (dcfGrowths inputs) inputs.current_revenue h0 hg

theorem project_revenues_monotone_witness :
    List.Chain (· ≤ ·) (100 : ℚ) (dcfRevenues exB) :=
  project_revenues_monotone exB (by norm_num [exB]) (by norm_num [dcfGrowths, exB])

/-- C1 counterexample: `exC1` supplies 1 growth rate but requests 3
forecast periods, yet `dcf_valuation` returns a result — no
`InsufficientData` (nor any other) error is raised. -/
theorem dcf_short_rates_cex :
    exC1.revenue_growth_rates.length < exC1.forecast_periods ∧ dcfOk exC1 = true := by
  refine ⟨by norm_num [exC1, exB], ?_⟩
  norm_num [dcfOk, dcf_valuation, discount_cash_flows, discountGo, checkedDiv,
    project_revenues, project_free_cash_flows, terminal_value, exC1, exB]

/-- C1 amended: when `revenue_growth_rates` is shorter than
`forecast_periods`, `dcf_valuation` raises no insufficient-data error;
provided the list is nonempty, `discount_rate ≠ -1` and
`discount_rate > terminal_growth_rate`, it returns a result built from
all supplied growth rates (one revenue per supplied rate). -/
theorem dcf_short_rates_succeeds (inputs : DCFInputs)
    (hshort : inputs.revenue_growth_rates.length < inputs.forecast_periods)
    (hne : inputs.revenue_growth_rates ≠ [])
    (hd : inputs.discount_rate ≠ -1)
    (hdg : inputs.terminal_growth_rate < inputs.discount_rate) :
    ∃ r, dcf_valuation inputs = Except.ok r ∧
      r.revenues.length = inputs.revenue_growth_rates.length := by
  have htake : dcfGrowths inputs = inputs.revenue_growth_rates := by
    simp [dcfGrowths, List.take_of_length_le (le_of_lt hshort)]
  have hgne : dcfGrowths inputs ≠ [] := by rw [htake]; exact hne
  obtain ⟨last, hlast⟩ := dcfFcfs_getLast inputs hgne
  have h1 : 1 + inputs.discount_rate ≠ 0 := fun h0 => hd (by linarith)
  refine ⟨_, dcf_valuation_eq_ok inputs last hlast h1 hdg, ?_⟩
  show (dcfRevenues inputs).length = _
  rw [dcfRevenues, project_revenues_length, htake]

theorem dcf_short_rates_succeeds_witness :
    exC1.revenue_growth_rates.length < exC1.forecast_periods ∧
    ∃ r, dcf_valuation exC1 = Except.ok r ∧
      r.revenues.length = exC1.revenue_growth_rates.length :=
  ⟨by norm_num [exC1, exB],
   dcf_short_rates_succeeds exC1 (by norm_num [exC1, exB]) (by simp [exC1, exB])
     (by norm_num [exC1, exB]) (by norm_num [exC1, exB])⟩

/-- C2 counterexample: the claimed equivalence "fails with
`InvalidAssumption` iff `discount_rate ≤ terminal_growth_rate`" is false.
On `exC2A` (empty truncated growth list) the rates are equal yet the
valuation fails with `IndexError`; on `exC2B`
(`discount_rate = -1 ≤ 0 = terminal_growth_rate`) it fails with
`ZeroDivisionError` inside `discount_cash_flows`, before the
terminal-value check is ever reached. -/
theorem dcf_invalid_assumption_iff_cex :
    (exC2A.discount_rate ≤ exC2A.terminal_growth_rate ∧
      dcf_valuation exC2A = Except.error DCFError.indexError ∧
      dcf_valuation exC2A ≠ Except.error DCFError.invalidAssumption) ∧
    (exC2B.discount_rate ≤ exC2B.terminal_growth_rate ∧
      dcf_valuation exC2B = Except.error DCFError.zeroDivisionError ∧
      dcf_valuation exC2B ≠ Except.error DCFError.invalidAssumption) := by
  have hA : dcf_valuation exC2A = Except.error DCFError.indexError := rfl
  have hB : dcf_valuation exC2B = Except.error DCFError.zeroDivisionError := by
    norm_num [dcf_valuation, discount_cash_flows, discountGo, checkedDiv,
      project_revenues, project_free_cash_flows, exC2B, exB]
  refine ⟨⟨by norm_num [exC2A, exB], hA, ?_⟩, ⟨by norm_num [exC2B, exB], hB, ?_⟩⟩
  · rw [hA]; simp
  · rw [hB]; simp

/-- C2 amended: restricted to inputs whose truncated growth-rate list is
nonempty and whose `discount_rate ≠ -1`, the valuation fails with
`InvalidAssumption` if and only if
`discount_rate ≤ terminal_growth_rate` (so equality also raises); the
check is the explicit precondition in `terminal_value`, not a division
by zero. -/
theorem dcf_invalid_assumption_iff (inputs : DCFInputs)
    (hne : dcfGrowths inputs ≠ [])
    (hd : inputs.discount_rate ≠ -1) :
    dcf_valuation inputs = Except.error DCFError.invalidAssumption ↔
      inputs.discount_rate ≤ inputs.terminal_growth_rate := by
  have h1 : 1 + inputs.discount_rate ≠ 0 := fun h0 => hd (by linarith)
  obtain ⟨last, hlast⟩ := dcfFcfs_getLast inputs hne
  constructor
  · intro herr
    by_contra hgt
    rw [dcf_valuation_eq_ok inputs last hlast h1 (not_le.mp hgt)] at herr
    simp at herr
  · intro hle
    exact dcf_valuation_eq_error_invalid inputs last hlast h1 hle

theorem dcf_invalid_assumption_iff_witness :
    dcf_valuation exC2C = Except.error DCFError.invalidAssumption :=
  (dcf_invalid_assumption_iff exC2C (by simp [dcfGrowths, exC2C, exB])
      (by norm_num [exC2C, exB])).mpr (by norm_num [exC2C, exB])

/-- C8: when at least `forecast_periods ≥ 1` growth rates are supplied,
`dcf_valuation` reads `revenue_growth_rates` only through its first
`forecast_periods` entries (any list with the same prefix gives the
identical outcome), and on success the `revenues`, `fcfs` and
`discounted_fcfs` sequences each have length exactly
`forecast_periods`. -/
theorem dcf_prefix_and_lengths (inputs : DCFInputs)
    (h1 : 1 ≤ inputs.forecast_periods)
    (h2 : inputs.forecast_periods ≤ inputs.revenue_growth_rates.length) :
    (∀ rates2 : List ℚ,
        rates2.take inputs.forecast_periods
          = inputs.revenue_growth_rates.take inputs.forecast_periods →
        dcf_valuation { inputs with revenue_growth_rates := rates2 }
          = dcf_valuation inputs) ∧
    ∀ r : ValuationResult, dcf_valuation inputs = Except.ok r →
      r.revenues.length = inputs.forecast_periods ∧
      r.fcfs.length = inputs.forecast_periods ∧
      r.discounted_fcfs.length = inputs.forecast_periods := by
  constructor
  · intro rates2 htake
    obtain ⟨cr, rates, pm, tr, rr, d, g, fp⟩ := inputs
    simp only at htake
    simp only [dcf_valuation]
    rw [htake]
  · intro r hr
    have he := dcf_valuation_ok_elim inputs r hr
    have hrev : r.revenues.length = inputs.forecast_periods := by
      rw [he.1, dcfRevenues, project_revenues_length, dcfGrowths, List.length_take]
      omega
    have hfcf : r.fcfs.length = inputs.forecast_periods := by
      rw [he.2.1, dcfFcfs_length, dcfGrowths, List.length_take]
      omega
    refine ⟨hrev, hfcf, ?_⟩
    have hd := he.2.2.1
    rw [discount_cash_flows] at hd
    rw [discountGo_ok_length _ _ _ _ hd, hfcf]

theorem dcf_prefix_and_lengths_witness :
    dcf_valuation { exB with revenue_growth_rates := [1/10, 1/2] }
        = dcf_valuation exB ∧
    (resB.revenues.length = exB.forecast_periods ∧
     resB.fcfs.length = exB.forecast_periods ∧
     resB.discounted_fcfs.length = exB.forecast_periods) := by
  have h := dcf_prefix_and_lengths exB (by norm_num [exB]) (by norm_num [exB])
  exact ⟨h.1 [1/10, 1/2] (by simp [exB]), h.2 resB dcf_exB⟩

/-- C10: whenever the truncated growth-rate list is empty (for example an
empty `revenue_growth_rates` with `forecast_periods ≥ 1`), the earlier
stages run on empty sequences and `dcf_valuation` then fails with an
uncaught `IndexError` at `fcfs[-1]` — not with `InsufficientData` or any
declared error of the interface. -/
theorem dcf_empty_growths_index_error (inputs : DCFInputs)
    (h : inputs.revenue_growth_rates.take inputs.forecast_periods = []) :
    dcf_valuation inputs = Except.error DCFError.indexError :=
  dcf_valuation_empty inputs h

theorem dcf_empty_growths_index_error_witness :
    exC2A.revenue_growth_rates.take exC2A.forecast_periods = [] ∧
    dcf_valuation exC2A = Except.error DCFError.indexError :=
  ⟨rfl, dcf_empty_growths_index_error exC2A rfl⟩
